import Mathlib

/-!
Shallow embedding of the user-library subsystem of the Solin book-tracking
backend. Persistent tables are modelled as Lean lists of records, handlers
as pure functions returning a result together with the post-state, and SQL
ordering as insertion sort by the relevant timestamp. Timestamps are
naturals (seconds); the bcrypt hash and verify primitives of passlib and
the JWT signing of python-jose are external libraries, so they enter as
function parameters, and a JWT is modelled by its payload. An HTTP 422
response produced by pydantic or FastAPI request validation, before a
handler runs, is modelled by the validationError constructor.
-/

namespace Solin

/-- Reading status enumeration from src/domain/models.py. -/
inductive ReadingStatus where
  | want_to_read
  | reading
  | read
deriving DecidableEq, Repr

/-- User row from src/domain/models.py. -/
structure User where
  id : Nat
  email : String
  username : String
  hashed_password : String
  created_at : Nat
deriving DecidableEq, Repr

/-- UserBook row (reading-list entry) from src/domain/models.py. -/
structure UserBook where
  id : Nat
  user_id : Nat
  book_key : String
  status : ReadingStatus
  added_at : Nat
  updated_at : Nat
deriving DecidableEq, Repr

/-- Comment row from src/domain/models.py. -/
structure Comment where
  id : Nat
  user_id : Nat
  book_key : String
  content : String
  created_at : Nat
  updated_at : Nat
deriving DecidableEq, Repr

/-- Errors surfaced by the API layer: validationError stands for the 422
produced by pydantic or FastAPI request validation before a handler runs,
and httpError for an HTTPException raised inside a handler with the given
status code and detail string. -/
inductive ApiError where
  | validationError
  | httpError (status_code : Nat) (detail : String)
deriving DecidableEq, Repr

/-- CommentResponse schema from src/interface/schemas/books.py. -/
structure CommentResponse where
  id : Nat
  book_key : String
  content : String
  created_at : Nat
  updated_at : Nat
  user_id : Nat
  username : String
deriving DecidableEq, Repr

/-- Replace the first element satisfying p by its image under f, leaving
every other element in place. This models an in-place SQLAlchemy mutation
of the object returned by query(...).first(). -/
def updateFirst (p : α → Bool) (f : α → α) : List α → List α
  | [] => []
  | a :: as => if p a then f a :: as else a :: updateFirst p f as

/-- Content length constraint of CommentCreate and CommentUpdate in
src/interface/schemas/books.py: Field(..., min_length=1, max_length=2000),
checked by pydantic before the handler runs. -/
def commentContentValid (content : String) : Prop :=
  1 ≤ content.length ∧ content.length ≤ 2000

instance (content : String) : Decidable (commentContentValid content) :=
  inferInstanceAs (Decidable (1 ≤ content.length ∧ content.length ≤ 2000))

/-- Handler create_comment of src/interface/api/routes/comments.py. The
pydantic validation of CommentCreate happens before the handler body; the
body inserts the row and echoes it with the current username. new_id is
the fresh primary key the database assigns, now the current time. -/
def create_comment (db : List Comment) (current_user : User)
    (book_key content : String) (new_id now : Nat) :
    Except ApiError CommentResponse × List Comment :=
  if commentContentValid content then
    let comment : Comment :=
      { id := new_id, user_id := current_user.id, book_key := book_key,
        content := content, created_at := now, updated_at := now }
    (.ok { id := comment.id, book_key := comment.book_key,
           content := comment.content, created_at := comment.created_at,
           updated_at := comment.updated_at, user_id := comment.user_id,
           username := current_user.username },
     db ++ [comment])
  else (.error .validationError, db)

/-- Handler update_comment of src/interface/api/routes/comments.py. The
pydantic validation of CommentUpdate happens first; then the comment is
looked up by id, ownership is checked, and on success content is mutated
and updated_at refreshed by the onupdate hook of the column. -/
def update_comment (db : List Comment) (current_user : User)
    (comment_id : Nat) (content : String) (now : Nat) :
    Except ApiError CommentResponse × List Comment :=
  if commentContentValid content then
    match db.find? (fun c => c.id == comment_id) with
    | none => (.error (.httpError 404 "Comment not found"), db)
    | some comment =>
      if comment.user_id ≠ current_user.id then
        (.error (.httpError 403 "Not authorized to update this comment"), db)
      else
        let comment2 := { comment with content := content, updated_at := now }
        (.ok { id := comment2.id, book_key := comment2.book_key,
               content := comment2.content, created_at := comment2.created_at,
               updated_at := comment2.updated_at, user_id := comment2.user_id,
               username := current_user.username },
         updateFirst (fun c => c.id == comment_id)
           (fun c => { c with content := content, updated_at := now }) db)
  else (.error .validationError, db)

/-- Handler delete_comment of src/interface/api/routes/comments.py: lookup
by id, ownership check, then deletion of the found row. -/
def delete_comment (db : List Comment) (current_user : User)
    (comment_id : Nat) : Except ApiError Unit × List Comment :=
  match db.find? (fun c => c.id == comment_id) with
  | none => (.error (.httpError 404 "Comment not found"), db)
  | some comment =>
    if comment.user_id ≠ current_user.id then
      (.error (.httpError 403 "Not authorized to delete this comment"), db)
    else
      (.ok (), db.eraseP (fun c => c.id == comment_id))

/-- Ordering used by get_book_comments: created_at descending. -/
def byCreatedDesc (a b : Comment) : Prop := b.created_at ≤ a.created_at

instance : DecidableRel byCreatedDesc :=
  fun a b => inferInstanceAs (Decidable (b.created_at ≤ a.created_at))

instance : IsTotal Comment byCreatedDesc :=
  ⟨fun a b => Nat.le_total b.created_at a.created_at⟩

instance : IsTrans Comment byCreatedDesc :=
  ⟨fun _ _ _ h1 h2 => Nat.le_trans h2 h1⟩

/-- Same ordering on the response rows. -/
def byCreatedDescR (a b : CommentResponse) : Prop := b.created_at ≤ a.created_at

/-- Response row built in the loop of get_book_comments: the comment row
joined with its author username; username_of models that foreign-key join
into the users table. -/
def commentToResponse (username_of : Nat → String) (c : Comment) : CommentResponse :=
  { id := c.id, book_key := c.book_key, content := c.content,
    created_at := c.created_at, updated_at := c.updated_at,
    user_id := c.user_id, username := username_of c.user_id }

/-- Handler get_book_comments of src/interface/api/routes/comments.py. It
takes no authenticated user: the route declares no get_current_user
dependency, so it is publicly accessible. FastAPI validates the query
parameters first: limit has ge=1, le=50 and default 10, offset has ge=0
and default 0 (offset is a Nat here, so ge=0 is structural). The body
filters by book key, orders by created_at descending, applies offset and
limit, and joins each row with its author username. -/
def get_book_comments (db : List Comment) (username_of : Nat → String)
    (book_key : String) (limit : Nat := 10) (offset : Nat := 0) :
    Except ApiError (List CommentResponse) :=
  if limit < 1 ∨ 50 < limit then .error .validationError
  else
    let comments :=
      (((List.insertionSort byCreatedDesc
          (db.filter (fun c => c.book_key == book_key))).drop offset).take limit)
    .ok (comments.map (commentToResponse username_of))

/-- Handler add_to_reading_list of src/interface/api/routes/user_books.py:
an application-level existence check on (user_id, book_key), then insertion
of a fresh row whose added_at and updated_at default to the current time.
new_id is the fresh primary key, now the current time. -/
def add_to_reading_list (db : List UserBook) (current_user : User)
    (book_key : String) (stat : ReadingStatus) (new_id now : Nat) :
    Except ApiError UserBook × List UserBook :=
  if (db.find? (fun b => b.user_id == current_user.id && b.book_key == book_key)).isSome then
    (.error (.httpError 400 "Book already in your reading list"), db)
  else
    let user_book : UserBook :=
      { id := new_id, user_id := current_user.id, book_key := book_key,
        status := stat, added_at := now, updated_at := now }
    (.ok user_book, db ++ [user_book])

/-- Ordering used by get_reading_list: updated_at descending. -/
def byUpdatedDesc (a b : UserBook) : Prop := b.updated_at ≤ a.updated_at

instance : DecidableRel byUpdatedDesc :=
  fun a b => inferInstanceAs (Decidable (b.updated_at ≤ a.updated_at))

instance : IsTotal UserBook byUpdatedDesc :=
  ⟨fun a b => Nat.le_total b.updated_at a.updated_at⟩

instance : IsTrans UserBook byUpdatedDesc :=
  ⟨fun _ _ _ h1 h2 => Nat.le_trans h2 h1⟩

/-- Handler get_reading_list of src/interface/api/routes/user_books.py:
filter to the rows of the current user, optionally filter by status (the
Python truthiness test `if status:` distinguishes None from an enum value,
since every ReadingStatus value is a non-empty string), then order by
updated_at descending. -/
def get_reading_list (db : List UserBook) (current_user : User)
    (stat : Option ReadingStatus) : List UserBook :=
  let q := db.filter (fun b => b.user_id == current_user.id)
  let q := match stat with
    | some s => q.filter (fun b => b.status == s)
    | none => q
  List.insertionSort byUpdatedDesc q

/-- Handler update_reading_status of src/interface/api/routes/user_books.py:
lookup by (user_id, book_key), 404 when absent, otherwise the found row has
its status mutated and updated_at refreshed by the onupdate hook. -/
def update_reading_status (db : List UserBook) (current_user : User)
    (book_key : String) (new_status : ReadingStatus) (now : Nat) :
    Except ApiError UserBook × List UserBook :=
  match db.find? (fun b => b.user_id == current_user.id && b.book_key == book_key) with
  | none => (.error (.httpError 404 "Book not found in reading list"), db)
  | some user_book =>
    (.ok { user_book with status := new_status, updated_at := now },
     updateFirst (fun b => b.user_id == current_user.id && b.book_key == book_key)
       (fun b => { b with status := new_status, updated_at := now }) db)

/-- Handler remove_from_reading_list of src/interface/api/routes/user_books.py:
lookup by (user_id, book_key), 404 when absent, otherwise deletion of the
found row. -/
def remove_from_reading_list (db : List UserBook) (current_user : User)
    (book_key : String) : Except ApiError Unit × List UserBook :=
  match db.find? (fun b => b.user_id == current_user.id && b.book_key == book_key) with
  | none => (.error (.httpError 404 "Book not found in reading list"), db)
  | some _ =>
    (.ok (), db.eraseP (fun b => b.user_id == current_user.id && b.book_key == book_key))

/-- Setting access_token_expire_minutes of src/core/config.py. -/
def access_token_expire_minutes : Nat := 30

/-- Payload of the JWT produced by jwt.encode in create_access_token: the
claims dictionary passed in, plus the exp claim (an absolute instant,
modelled in seconds). The signature itself is the external library. -/
structure TokenPayload where
  data : List (String × String)
  exp : Nat
deriving DecidableEq, Repr

/-- Token response of the login route: the encoded JWT and token_type. -/
structure Token where
  access_token : TokenPayload
  token_type : String
deriving DecidableEq, Repr

/-- Function create_access_token of
src/application/uses_cases/auth/auth_service.py. The Python expression
`expires_delta or timedelta(minutes=15)` falls back to the hardcoded 15
minutes both when expires_delta is None and when it is a zero timedelta,
because a zero timedelta is falsy. Durations are in seconds, now is the
current time. -/
def create_access_token (data : List (String × String))
    (expires_delta : Option Nat) (now : Nat) : TokenPayload :=
  let delta := match expires_delta with
    | some d => if d = 0 then 15 * 60 else d
    | none => 15 * 60
  { data := data, exp := now + delta }

/-- Function create_user of
src/application/uses_cases/auth/auth_service.py: conflict on existing
email, then conflict on existing username, then insertion of the new row
with the hashed password. The bcrypt hash of passlib is the parameter
hash; new_id is the fresh primary key, now the current time. -/
def create_user (hash : String → String) (db : List User)
    (email username password : String) (new_id now : Nat) :
    Except ApiError User × List User :=
  if (db.find? (fun u => u.email == email)).isSome then
    (.error (.httpError 400 "Email already registered"), db)
  else if (db.find? (fun u => u.username == username)).isSome then
    (.error (.httpError 400 "Username already taken"), db)
  else
    let db_user : User :=
      { id := new_id, email := email, username := username,
        hashed_password := hash password, created_at := now }
    (.ok db_user, db ++ [db_user])

/-- Function authenticate_user of
src/application/uses_cases/auth/auth_service.py: returns None both when no
user matches the email and when password verification fails. The bcrypt
verification of passlib is the parameter verify. -/
def authenticate_user (verify : String → String → Bool) (db : List User)
    (email password : String) : Option User :=
  match db.find? (fun u => u.email == email) with
  | none => none
  | some user => if verify password user.hashed_password then some user else none

/-- Handler login of src/interface/api/routes/auth.py: a single generic
401 on authentication failure, otherwise a bearer token whose expiry delta
is the configured access_token_expire_minutes, passed explicitly. -/
def login (verify : String → String → Bool) (db : List User)
    (email password : String) (now : Nat) : Except ApiError Token :=
  match authenticate_user verify db email password with
  | none => .error (.httpError 401 "Incorrect email or password")
  | some user =>
    let access_token_expires := access_token_expire_minutes * 60
    .ok { access_token :=
            create_access_token [("sub", user.email)] (some access_token_expires) now,
          token_type := "bearer" }

/-!
Helper lemmas about updateFirst and eraseP.
-/

theorem updateFirst_decomp (p : α → Bool) (f : α → α) {l : List α} {c : α}
    (h : l.find? p = some c) :
    ∃ l1 l2, l = l1 ++ c :: l2 ∧ (∀ x ∈ l1, p x = false) ∧ p c = true ∧
      updateFirst p f l = l1 ++ f c :: l2 := by
  induction l with
  | nil => simp at h
  | cons a as ih =>
    cases hpa : p a with
    | true =>
      rw [List.find?_cons_of_pos _ hpa] at h
      obtain rfl : a = c := Option.some_inj.mp h
      exact ⟨[], as, rfl, by simp, hpa, by simp [updateFirst, hpa]⟩
    | false =>
      rw [List.find?_cons_of_neg _ (by simp [hpa])] at h
      obtain ⟨l1, l2, hsplit, hl1, hpc, hupd⟩ := ih h
      refine ⟨a :: l1, l2, by simp [hsplit], ?_, hpc, by simp [updateFirst, hpa, hupd]⟩
      intro x hx
      rcases List.mem_cons.mp hx with rfl | hx
      · exact hpa
      · exact hl1 x hx

theorem find?_eraseP_eq_none {p : α → Bool} {l : List α}
    (h : l.countP p ≤ 1) : (l.eraseP p).find? p = none := by
  induction l with
  | nil => simp
  | cons a as ih =>
    cases hpa : p a with
    | true =>
      rw [List.eraseP_cons_of_pos hpa, List.find?_eq_none]
      intro x hx
      have hz : as.countP p = 0 := by
        have hc := h
        rw [List.countP_cons_of_pos _ _ hpa] at hc
        omega
      have := List.countP_eq_zero.mp hz x hx
      simpa using this
    | false =>
      rw [List.eraseP_cons_of_neg (by simp [hpa]),
        List.find?_cons_of_neg _ (by simp [hpa])]
      apply ih
      have hc := h
      rwa [List.countP_cons_of_neg _ _ (by simp [hpa])] at hc

/-- C1 counterexample: the claim as stated fails on the code. For the
comment with id 1 authored by user 1, an update attempt by user 2 with
empty new content fails with the pydantic ValidationError, not with the
Forbidden error, because request-body validation runs before the handler
and hence before the ownership check. -/
theorem C1_counterexample :
    update_comment [⟨1, 1, "/works/OL1W", "hello", 0, 0⟩]
        ⟨2, "b@x.com", "bob", "hh", 0⟩ 1 "" 5
      = (.error .validationError, [⟨1, 1, "/works/OL1W", "hello", 0, 0⟩])
    ∧ ApiError.validationError
        ≠ ApiError.httpError 403 "Not authorized to update this comment" := by
  constructor
  · rfl
  · intro hcontra
    cases hcontra

/-- C1 (amended): for every comment c in the store and every authenticated
user u with u.id different from c.user_id, update with content passing the
length validation fails with Forbidden, update with content failing it
fails with ValidationError before the ownership check, and delete always
fails with Forbidden; in every case the comment store is unchanged and the
call never silently succeeds. -/
theorem C1_nonauthor_update_delete (db : List Comment) (u : User) (cid : Nat)
    (newContent : String) (now : Nat) (c : Comment)
    (hfind : db.find? (fun c => c.id == cid) = some c)
    (hown : c.user_id ≠ u.id) :
    (commentContentValid newContent →
      update_comment db u cid newContent now
        = (.error (.httpError 403 "Not authorized to update this comment"), db))
    ∧ (¬ commentContentValid newContent →
      update_comment db u cid newContent now = (.error .validationError, db))
    ∧ delete_comment db u cid
        = (.error (.httpError 403 "Not authorized to delete this comment"), db) := by
  refine ⟨fun hv => ?_, fun hv => ?_, ?_⟩
  · simp [update_comment, hv, hfind, hown]
  · simp [update_comment, hv]
  · simp [delete_comment, hfind, hown]

/-- C1 witness of the amended theorem at a concrete input. -/
theorem C1_nonauthor_update_delete_witness :
    update_comment [⟨1, 1, "/works/OL1W", "hello", 0, 0⟩]
        ⟨2, "b@x.com", "bob", "hh", 0⟩ 1 "yo" 5
      = (.error (.httpError 403 "Not authorized to update this comment"),
         [⟨1, 1, "/works/OL1W", "hello", 0, 0⟩]) :=
  (C1_nonauthor_update_delete [⟨1, 1, "/works/OL1W", "hello", 0, 0⟩]
    ⟨2, "b@x.com", "bob", "hh", 0⟩ 1 "yo" 5 ⟨1, 1, "/works/OL1W", "hello", 0, 0⟩
    (by decide) (by decide)).1 (by decide)

/-- C10: a successful comment update decomposes the store into a prefix of
non-matching comments, the one mutated comment, and an untouched suffix:
only the target comment changes, and only in its content and updated_at
fields, with id, book_key, user_id and created_at preserved. -/
theorem C10_update_changes_only_target (db : List Comment) (u : User)
    (cid : Nat) (newContent : String) (now : Nat) (resp : CommentResponse)
    (db2 : List Comment)
    (h : update_comment db u cid newContent now = (.ok resp, db2)) :
    ∃ l1 c c2 l2, db = l1 ++ c :: l2 ∧ db2 = l1 ++ c2 :: l2 ∧
      (∀ x ∈ l1, (x.id == cid) = false) ∧
      c2.id = c.id ∧ c2.book_key = c.book_key ∧ c2.user_id = c.user_id ∧
      c2.created_at = c.created_at ∧ c2.content = newContent ∧
      c2.updated_at = now := by
  by_cases hv : commentContentValid newContent
  · cases hfind : db.find? (fun c => c.id == cid) with
    | none => simp [update_comment, hv, hfind] at h
    | some c =>
      by_cases hown : c.user_id = u.id
      · have hdb2 : db2 = updateFirst (fun c => c.id == cid)
            (fun c => { c with content := newContent, updated_at := now }) db := by
          have hsnd := congrArg Prod.snd h
          simp only [update_comment, hv, if_true, hfind] at hsnd
          simp [hown] at hsnd
          exact hsnd.symm
        obtain ⟨l1, l2, hsplit, hl1, hpc, hupd⟩ :=
          updateFirst_decomp (fun c : Comment => c.id == cid)
            (fun c : Comment => { c with content := newContent, updated_at := now }) hfind
        exact ⟨l1, c, { c with content := newContent, updated_at := now }, l2,
          hsplit, by rw [hdb2, hupd], hl1, rfl, rfl, rfl, rfl, rfl, rfl⟩
      · simp [update_comment, hv, hfind, hown] at h
  · simp [update_comment, hv] at h

/-- C10 witness at a concrete input: the author updates their own comment
while a comment of another user sits in front of it in the store. -/
theorem C10_update_changes_only_target_witness :
    ∃ l1 c c2 l2,
      ([⟨1, 2, "/works/OL2W", "first", 0, 0⟩,
        ⟨3, 1, "/works/OL1W", "hello", 0, 0⟩] : List Comment)
          = l1 ++ c :: l2 ∧
      ([⟨1, 2, "/works/OL2W", "first", 0, 0⟩,
        ⟨3, 1, "/works/OL1W", "new text", 0, 9⟩] : List Comment)
          = l1 ++ c2 :: l2 ∧
      (∀ x ∈ l1, (x.id == 3) = false) ∧
      c2.id = c.id ∧ c2.book_key = c.book_key ∧ c2.user_id = c.user_id ∧
      c2.created_at = c.created_at ∧ c2.content = "new text" ∧
      c2.updated_at = 9 :=
  C10_update_changes_only_target
    [⟨1, 2, "/works/OL2W", "first", 0, 0⟩, ⟨3, 1, "/works/OL1W", "hello", 0, 0⟩]
    ⟨1, "a@x.com", "alice", "hh", 0⟩ 3 "new text" 9
    ⟨3, "/works/OL1W", "new text", 0, 9, 1, "alice"⟩
    [⟨1, 2, "/works/OL2W", "first", 0, 0⟩, ⟨3, 1, "/works/OL1W", "new text", 0, 9⟩]
    (by rfl)

/-- C6: updating the reading status of a (user, book key) pair with no
matching entry fails with NotFound and leaves the store unchanged; in
general the operation decomposes the store so that only the first matching
entry is mutated, and every entry not matching the pair, whether of
another user or of the same user for another book key, is still in the
store afterwards. -/
theorem C6_updateStatus_notfound_frame (db : List UserBook) (u : User)
    (k : String) (ns : ReadingStatus) (now : Nat) :
    (db.find? (fun b => b.user_id == u.id && b.book_key == k) = none →
      update_reading_status db u k ns now
        = (.error (.httpError 404 "Book not found in reading list"), db))
    ∧ (∀ c, db.find? (fun b => b.user_id == u.id && b.book_key == k) = some c →
        ∃ l1 l2, db = l1 ++ c :: l2 ∧
          (∀ x ∈ l1, (x.user_id == u.id && x.book_key == k) = false) ∧
          (update_reading_status db u k ns now).2
            = l1 ++ { c with status := ns, updated_at := now } :: l2)
    ∧ ∀ x ∈ db, (x.user_id == u.id && x.book_key == k) = false →
        x ∈ (update_reading_status db u k ns now).2 := by
  refine ⟨fun hnone => ?_, fun c hfind => ?_, fun x hx hxp => ?_⟩
  · simp [update_reading_status, hnone]
  · obtain ⟨l1, l2, hsplit, hl1, hpc, hupd⟩ :=
      updateFirst_decomp (fun b : UserBook => b.user_id == u.id && b.book_key == k)
        (fun b : UserBook => { b with status := ns, updated_at := now }) hfind
    refine ⟨l1, l2, hsplit, hl1, ?_⟩
    simp [update_reading_status, hfind, hupd]
  · cases hfind : db.find? (fun b => b.user_id == u.id && b.book_key == k) with
    | none => simpa [update_reading_status, hfind] using hx
    | some c =>
      obtain ⟨l1, l2, hsplit, hl1, hpc, hupd⟩ :=
        updateFirst_decomp (fun b : UserBook => b.user_id == u.id && b.book_key == k)
          (fun b : UserBook => { b with status := ns, updated_at := now }) hfind
      have hsnd : (update_reading_status db u k ns now).2
          = l1 ++ { c with status := ns, updated_at := now } :: l2 := by
        simp [update_reading_status, hfind, hupd]
      rw [hsnd]
      rw [hsplit] at hx
      rcases List.mem_append.mp hx with hx1 | hx2
      · exact List.mem_append.mpr (Or.inl hx1)
      · rcases List.mem_cons.mp hx2 with rfl | hx3
        · rw [hpc] at hxp
          cases hxp
        · exact List.mem_append.mpr (Or.inr (List.mem_cons.mpr (Or.inr hx3)))

/-- C6 witness: concrete store where the pair is absent, giving NotFound
with the store unchanged, exercised through the first conjunct. -/
theorem C6_updateStatus_notfound_frame_witness :
    update_reading_status
        [⟨1, 7, "/works/OL9W", ReadingStatus.reading, 0, 0⟩]
        ⟨5, "a@x.com", "alice", "hh", 0⟩ "/works/OL1W" ReadingStatus.read 4
      = (.error (.httpError 404 "Book not found in reading list"),
         [⟨1, 7, "/works/OL9W", ReadingStatus.reading, 0, 0⟩]) :=
  (C6_updateStatus_notfound_frame _ _ _ _ _).1 (by decide)

/-- C2: under the per-current-state uniqueness invariant (at most one
entry for the pair), adding a book that is already in the reading list
fails with Conflict and leaves the store as it was, whatever the second
status; and an add after a remove of the pair succeeds, so uniqueness is
per-current-state, not historical. The first conjunct holds whatever the
outcome of the first add: either it inserted the pair or the pair was
already present. -/
theorem C2_add_conflict_remove_readd (db : List UserBook) (u : User)
    (k : String) (s s2 : ReadingStatus) (id1 t1 id2 t2 id3 t3 : Nat)
    (huniq : db.countP (fun b => b.user_id == u.id && b.book_key == k) ≤ 1) :
    (add_to_reading_list (add_to_reading_list db u k s id1 t1).2 u k s2 id2 t2
      = (.error (.httpError 400 "Book already in your reading list"),
         (add_to_reading_list db u k s id1 t1).2))
    ∧ ∃ e, (add_to_reading_list (remove_from_reading_list db u k).2 u k s id3 t3).1
        = .ok e := by
  have hconf : ∀ (db2 : List UserBook) (s3 : ReadingStatus) (nid nt : Nat),
      (db2.find? (fun b => b.user_id == u.id && b.book_key == k)).isSome = true →
      add_to_reading_list db2 u k s3 nid nt
        = (.error (.httpError 400 "Book already in your reading list"), db2) := by
    intro db2 s3 nid nt h
    simp only [add_to_reading_list]
    rw [if_pos h]
  have hok : ∀ (db2 : List UserBook) (s3 : ReadingStatus) (nid nt : Nat),
      db2.find? (fun b => b.user_id == u.id && b.book_key == k) = none →
      (add_to_reading_list db2 u k s3 nid nt).1
        = .ok ⟨nid, u.id, k, s3, nt, nt⟩ := by
    intro db2 s3 nid nt h
    simp only [add_to_reading_list]
    rw [if_neg (by simp [h])]
  constructor
  · apply hconf
    cases hf : (db.find? (fun b => b.user_id == u.id && b.book_key == k)).isSome with
    | true =>
      have hstate : (add_to_reading_list db u k s id1 t1).2 = db := by
        simp only [add_to_reading_list]
        rw [if_pos hf]
      rw [hstate]
      exact hf
    | false =>
      have hstate : (add_to_reading_list db u k s id1 t1).2
          = db ++ [⟨id1, u.id, k, s, t1, t1⟩] := by
        simp only [add_to_reading_list]
        rw [if_neg (by simp [hf])]
      rw [hstate]
      exact List.find?_isSome.mpr ⟨⟨id1, u.id, k, s, t1, t1⟩, by simp, by simp⟩
  · cases hf : db.find? (fun b => b.user_id == u.id && b.book_key == k) with
    | none =>
      have hstate : (remove_from_reading_list db u k).2 = db := by
        simp only [remove_from_reading_list, hf]
      exact ⟨⟨id3, u.id, k, s, t3, t3⟩, by rw [hstate]; exact hok db s id3 t3 hf⟩
    | some b0 =>
      have hstate : (remove_from_reading_list db u k).2
          = db.eraseP (fun b => b.user_id == u.id && b.book_key == k) := by
        simp only [remove_from_reading_list, hf]
      exact ⟨⟨id3, u.id, k, s, t3, t3⟩, by
        rw [hstate]; exact hok _ s id3 t3 (find?_eraseP_eq_none huniq)⟩

/-- C2 witness at a concrete input: an empty store, user alice and one
book key. -/
theorem C2_add_conflict_remove_readd_witness :
    (add_to_reading_list
        (add_to_reading_list [] ⟨1, "a@x.com", "alice", "hh", 0⟩
          "/works/OL1W" ReadingStatus.reading 1 1).2
        ⟨1, "a@x.com", "alice", "hh", 0⟩ "/works/OL1W" ReadingStatus.read 2 2
      = (.error (.httpError 400 "Book already in your reading list"),
         (add_to_reading_list [] ⟨1, "a@x.com", "alice", "hh", 0⟩
           "/works/OL1W" ReadingStatus.reading 1 1).2))
    ∧ ∃ e, (add_to_reading_list
        (remove_from_reading_list [] ⟨1, "a@x.com", "alice", "hh", 0⟩ "/works/OL1W").2
        ⟨1, "a@x.com", "alice", "hh", 0⟩ "/works/OL1W" ReadingStatus.reading 3 3).1
        = .ok e :=
  C2_add_conflict_remove_readd [] ⟨1, "a@x.com", "alice", "hh", 0⟩ "/works/OL1W"
    ReadingStatus.reading ReadingStatus.read 1 1 2 2 3 3 (by decide)

/-- C3: when the email is already registered and the username is already
taken, registration fails with the duplicate-email Conflict, because the
email check runs first, and the user store is unchanged. -/
theorem C3_register_duplicate_email_precedence (hash : String → String)
    (db : List User) (email username password : String) (new_id now : Nat)
    (hemail : ∃ v ∈ db, v.email = email)
    (_husername : ∃ v ∈ db, v.username = username) :
    create_user hash db email username password new_id now
      = (.error (.httpError 400 "Email already registered"), db) := by
  obtain ⟨u0, hu0, he⟩ := hemail
  have hsome : (db.find? (fun v => v.email == email)).isSome = true :=
    List.find?_isSome.mpr ⟨u0, hu0, by simp [he]⟩
  simp [create_user, hsome]

/-- C3 witness at a concrete input where both the email and the username
collide with the one stored user. -/
theorem C3_register_duplicate_email_precedence_witness :
    create_user (fun s => s) [⟨1, "a@x.com", "alice", "hh", 0⟩]
        "a@x.com" "alice" "pw" 2 7
      = (.error (.httpError 400 "Email already registered"),
         [⟨1, "a@x.com", "alice", "hh", 0⟩]) :=
  C3_register_duplicate_email_precedence (fun s => s)
    [⟨1, "a@x.com", "alice", "hh", 0⟩] "a@x.com" "alice" "pw" 2 7
    ⟨⟨1, "a@x.com", "alice", "hh", 0⟩, by simp, rfl⟩
    ⟨⟨1, "a@x.com", "alice", "hh", 0⟩, by simp, rfl⟩

/-- C5: a login whose email matches no stored user and a login whose email
matches a user but whose password fails verification both fail with the
same Unauthorized error carrying the identical generic message, so the
observable failure never reveals which field was wrong. -/
theorem C5_login_generic_failure (verify : String → String → Bool)
    (db : List User) (email1 p1 email2 p2 : String) (now1 now2 : Nat) (u : User)
    (h1 : db.find? (fun v => v.email == email1) = none)
    (h2 : db.find? (fun v => v.email == email2) = some u)
    (h3 : verify p2 u.hashed_password = false) :
    login verify db email1 p1 now1
      = .error (.httpError 401 "Incorrect email or password")
    ∧ login verify db email2 p2 now2
      = .error (.httpError 401 "Incorrect email or password")
    ∧ login verify db email1 p1 now1 = login verify db email2 p2 now2 := by
  refine ⟨?_, ?_, ?_⟩ <;> simp [login, authenticate_user, h1, h2, h3]

/-- C5 witness: one stored user; a wrong email and a right email with a
wrong password produce the identical error. -/
theorem C5_login_generic_failure_witness :
    login (fun _ _ => false) [⟨1, "a@x.com", "alice", "hh", 0⟩] "z@x.com" "pw" 3
      = .error (.httpError 401 "Incorrect email or password")
    ∧ login (fun _ _ => false) [⟨1, "a@x.com", "alice", "hh", 0⟩] "a@x.com" "pw" 3
      = .error (.httpError 401 "Incorrect email or password")
    ∧ login (fun _ _ => false) [⟨1, "a@x.com", "alice", "hh", 0⟩] "z@x.com" "pw" 3
      = login (fun _ _ => false) [⟨1, "a@x.com", "alice", "hh", 0⟩] "a@x.com" "pw" 3 :=
  C5_login_generic_failure (fun _ _ => false) [⟨1, "a@x.com", "alice", "hh", 0⟩]
    "z@x.com" "pw" "a@x.com" "pw" 3 3 ⟨1, "a@x.com", "alice", "hh", 0⟩
    (by decide) (by decide) rfl

/-- C4 counterexample: with no ttl supplied, the expiration of the issued
token is not the issuance time plus the configured number of minutes (30
by default): the code hardcodes a 15 minute fallback instead of reading
the configured value. -/
theorem C4_counterexample :
    (create_access_token [] none 0).exp ≠ 0 + access_token_expire_minutes * 60 := by
  decide

/-- C4 (amended): the expiration instant is the issuance time plus the
given ttl for any nonzero ttl (a zero ttl falls back like an omitted one,
by Python truthiness of timedelta); when no ttl is supplied the fallback
is a hardcoded 15 minutes, not the configured value; the configured
default is 30 minutes and the login endpoint passes it explicitly, so
tokens issued through login expire the configured 30 minutes after
issuance. -/
theorem C4_token_expiry (data : List (String × String)) (d now : Nat)
    (hd : d ≠ 0) (verify : String → String → Bool) (db : List User)
    (email password : String) (now2 : Nat) (t : Token)
    (hlogin : login verify db email password now2 = .ok t) :
    (create_access_token data (some d) now).exp = now + d
    ∧ (create_access_token data none now).exp = now + 15 * 60
    ∧ access_token_expire_minutes = 30
    ∧ t.access_token.exp = now2 + access_token_expire_minutes * 60 := by
  refine ⟨by simp [create_access_token, hd], rfl, rfl, ?_⟩
  cases hauth : authenticate_user verify db email password with
  | none => simp [login, hauth] at hlogin
  | some user =>
    simp only [login, hauth] at hlogin
    have ht : Token.mk (create_access_token [("sub", user.email)]
          (some (access_token_expire_minutes * 60)) now2) "bearer" = t := by
      simpa using hlogin
    rw [← ht]
    simp [create_access_token, access_token_expire_minutes]

/-- C4 witness of the amended theorem at a concrete input, including a
successful login issuing a token that expires 30 minutes after issuance. -/
theorem C4_token_expiry_witness :
    (create_access_token [("sub", "a@x.com")] (some 60) 100).exp = 100 + 60
    ∧ (create_access_token [("sub", "a@x.com")] none 100).exp = 100 + 15 * 60
    ∧ access_token_expire_minutes = 30
    ∧ (Token.mk ⟨[("sub", "a@x.com")], 1850⟩ "bearer").access_token.exp
        = 50 + access_token_expire_minutes * 60 :=
  C4_token_expiry [("sub", "a@x.com")] 60 100 (by decide) (fun _ _ => true)
    [⟨1, "a@x.com", "alice", "hh", 0⟩] "a@x.com" "pw" 50
    ⟨⟨[("sub", "a@x.com")], 1850⟩, "bearer"⟩ (by rfl)

/-- C7: the reading list returned for a user and optional status filter is
sorted by updated_at descending, is a permutation of the entries of the
store that belong to the user and pass the filter, and contains an entry
exactly when it is in the store, owned by the user, and of the filtered
status when a filter is given. -/
theorem C7_reading_list_exact (db : List UserBook) (u : User)
    (st : Option ReadingStatus) :
    List.Sorted byUpdatedDesc (get_reading_list db u st)
    ∧ (get_reading_list db u st).Perm
        (db.filter (fun b => b.user_id == u.id &&
          match st with | some s => b.status == s | none => true))
    ∧ ∀ x, x ∈ get_reading_list db u st ↔
        (x ∈ db ∧ x.user_id = u.id ∧ ∀ s, st = some s → x.status = s) := by
  have hperm : (get_reading_list db u st).Perm
      (db.filter (fun b => b.user_id == u.id &&
        match st with | some s => b.status == s | none => true)) := by
    cases st with
    | none =>
      show (get_reading_list db u none).Perm
        (db.filter (fun b => b.user_id == u.id && true))
      have h2 : db.filter (fun b => b.user_id == u.id)
          = db.filter (fun b => b.user_id == u.id && true) :=
        List.filter_congr (fun a _ => by simp)
      rw [← h2]
      exact List.perm_insertionSort byUpdatedDesc _
    | some s =>
      show (get_reading_list db u (some s)).Perm
        (db.filter (fun b => b.user_id == u.id && b.status == s))
      have h2 : (db.filter (fun b => b.user_id == u.id)).filter
            (fun b => b.status == s)
          = db.filter (fun b => b.user_id == u.id && b.status == s) := by
        rw [List.filter_filter]
        exact List.filter_congr (fun a _ => Bool.and_comm ..)
      rw [← h2]
      exact List.perm_insertionSort byUpdatedDesc _
  have hmem : ∀ x, x ∈ get_reading_list db u st ↔
      (x ∈ db ∧ x.user_id = u.id ∧ ∀ s, st = some s → x.status = s) := by
    intro x
    rw [hperm.mem_iff, List.mem_filter]
    cases st with
    | none => simp
    | some s => simp
  have hsorted : List.Sorted byUpdatedDesc (get_reading_list db u st) := by
    cases st <;> exact List.sorted_insertionSort byUpdatedDesc _
  exact ⟨hsorted, hperm, hmem⟩

/-- C7 witness at a concrete input: two entries of the user and one of
another user, with the status filter selecting one entry. -/
theorem C7_reading_list_exact_witness :
    ⟨1, 1, "/works/OL1W", ReadingStatus.read, 0, 5⟩ ∈
      get_reading_list
        [⟨1, 1, "/works/OL1W", ReadingStatus.read, 0, 5⟩,
         ⟨2, 2, "/works/OL2W", ReadingStatus.read, 0, 6⟩,
         ⟨3, 1, "/works/OL3W", ReadingStatus.reading, 0, 7⟩]
        ⟨1, "a@x.com", "alice", "hh", 0⟩ (some ReadingStatus.read) :=
  ((C7_reading_list_exact
    [⟨1, 1, "/works/OL1W", ReadingStatus.read, 0, 5⟩,
     ⟨2, 2, "/works/OL2W", ReadingStatus.read, 0, 6⟩,
     ⟨3, 1, "/works/OL3W", ReadingStatus.reading, 0, 7⟩]
    ⟨1, "a@x.com", "alice", "hh", 0⟩ (some ReadingStatus.read)).2.2
    ⟨1, 1, "/works/OL1W", ReadingStatus.read, 0, 5⟩).mpr
    ⟨by simp, rfl, fun s hs => by cases hs; rfl⟩

/-- C8: with limit in bounds, listing the comments of a book succeeds
without authentication (the handler takes no user), every returned row
carries the requested book key, the rows are ordered by created_at
descending, at most limit rows are returned after skipping offset rows of
the ordered result, and the defaults are limit 10 and offset 0. -/
theorem C8_book_comments (db : List Comment) (username_of : Nat → String)
    (k : String) (limit offset : Nat) (h1 : 1 ≤ limit) (h2 : limit ≤ 50) :
    ∃ l, get_book_comments db username_of k limit offset = .ok l
      ∧ (∀ r ∈ l, r.book_key = k)
      ∧ List.Pairwise byCreatedDescR l
      ∧ l.length ≤ limit
      ∧ get_book_comments db username_of k
          = get_book_comments db username_of k 10 0 := by
  have hcond : ¬ (limit < 1 ∨ 50 < limit) := by omega
  refine ⟨(((List.insertionSort byCreatedDesc
      (db.filter (fun c => c.book_key == k))).drop offset).take limit).map
      (commentToResponse username_of),
    ?_, ?_, ?_, ?_, rfl⟩
  · simp only [get_book_comments]
    rw [if_neg hcond]
  · intro r hr
    obtain ⟨c, hc, rfl⟩ := List.mem_map.mp hr
    have hc2 := List.take_subset _ _ hc
    have hc3 := List.drop_subset _ _ hc2
    have hc4 : c ∈ db.filter (fun c => c.book_key == k) :=
      (List.perm_insertionSort _ _).mem_iff.mp hc3
    simpa using (List.mem_filter.mp hc4).2
  · have h0 : List.Sorted byCreatedDesc (List.insertionSort byCreatedDesc
        (db.filter (fun c => c.book_key == k))) :=
      List.sorted_insertionSort byCreatedDesc _
    have hsub : List.Sublist (((List.insertionSort byCreatedDesc
        (db.filter (fun c => c.book_key == k))).drop offset).take limit)
        (List.insertionSort byCreatedDesc (db.filter (fun c => c.book_key == k))) :=
      (List.take_sublist ..).trans (List.drop_sublist ..)
    exact (h0.sublist hsub).map _ (fun a b hab => hab)
  · rw [List.length_map, List.length_take]
    exact Nat.min_le_left _ _

/-- C8 witness at a concrete input: two comments on the requested book and
one on another, listed with limit 2 and offset 0. -/
theorem C8_book_comments_witness :
    ∃ l, get_book_comments
        [⟨1, 1, "/works/OL1W", "first", 1, 1⟩,
         ⟨2, 1, "/works/OL2W", "other", 2, 2⟩,
         ⟨3, 1, "/works/OL1W", "second", 3, 3⟩]
        (fun _ => "alice") "/works/OL1W" 2 0 = .ok l
      ∧ (∀ r ∈ l, r.book_key = "/works/OL1W")
      ∧ List.Pairwise byCreatedDescR l
      ∧ l.length ≤ 2
      ∧ get_book_comments
          [⟨1, 1, "/works/OL1W", "first", 1, 1⟩,
           ⟨2, 1, "/works/OL2W", "other", 2, 2⟩,
           ⟨3, 1, "/works/OL1W", "second", 3, 3⟩]
          (fun _ => "alice") "/works/OL1W"
        = get_book_comments
          [⟨1, 1, "/works/OL1W", "first", 1, 1⟩,
           ⟨2, 1, "/works/OL2W", "other", 2, 2⟩,
           ⟨3, 1, "/works/OL1W", "second", 3, 3⟩]
          (fun _ => "alice") "/works/OL1W" 10 0 :=
  C8_book_comments
    [⟨1, 1, "/works/OL1W", "first", 1, 1⟩,
     ⟨2, 1, "/works/OL2W", "other", 2, 2⟩,
     ⟨3, 1, "/works/OL1W", "second", 3, 3⟩]
    (fun _ => "alice") "/works/OL1W" 2 0 (by decide) (by decide)

/-- C9: content of length 0 or above 2000 fails validation on both comment
create and comment update, before reaching storage and leaving the store
unchanged; content of length 1 to 2000 passes validation: create succeeds
and update never fails with a validation error. -/
theorem C9_content_validation (db : List Comment) (u : User)
    (k content : String) (new_id now cid : Nat) :
    (content.length = 0 ∨ 2000 < content.length →
      create_comment db u k content new_id now = (.error .validationError, db)
      ∧ update_comment db u cid content now = (.error .validationError, db))
    ∧ (1 ≤ content.length ∧ content.length ≤ 2000 →
      (∃ resp, (create_comment db u k content new_id now).1 = .ok resp)
      ∧ (update_comment db u cid content now).1 ≠ .error .validationError) := by
  constructor
  · intro hbad
    have hv : ¬ commentContentValid content := by
      unfold commentContentValid
      omega
    exact ⟨by simp [create_comment, hv], by simp [update_comment, hv]⟩
  · intro hgood
    have hv : commentContentValid content := hgood
    refine ⟨⟨⟨new_id, k, content, now, now, u.id, u.username⟩,
      by simp [create_comment, hv]⟩, ?_⟩
    cases hfind : db.find? (fun c => c.id == cid) with
    | none => simp [update_comment, hv, hfind]
    | some c =>
      by_cases hown : c.user_id = u.id
      · simp [update_comment, hv, hfind, hown]
      · simp [update_comment, hv, hfind, hown]

/-- C9 witness: the empty content fails both create and update on a
concrete store, exercised through the first conjunct. -/
theorem C9_content_validation_witness :
    create_comment [] ⟨1, "a@x.com", "alice", "hh", 0⟩ "/works/OL1W" "" 1 1
      = (.error .validationError, [])
    ∧ update_comment [] ⟨1, "a@x.com", "alice", "hh", 0⟩ 1 "" 1
      = (.error .validationError, []) :=
  (C9_content_validation [] ⟨1, "a@x.com", "alice", "hh", 0⟩ "/works/OL1W" ""
    1 1 1).1 (by decide)

end Solin
